import Mathlib

/-!
# Verification of the aws-k8s-tester BERT Neuron inference harness

Shallow embedding of the Python scripts
`test/images/neuron-inference/infer.py` (the multithreaded variant) and
`e2e2/test/images/neuron-inference/infer.py` (the single-loop variant),
together with proofs of the testable properties of the specification.

Conventions:
* Python lists become Lean `List`s; Python integer arithmetic on
  non-negative quantities becomes `Nat` arithmetic.
* Wall-clock times and latencies (Python floats) are modelled as exact
  rationals `ℚ`; the claims under study are about control flow and exact
  arithmetic identities, not rounding.
* Fallible Python code (statements that can raise) is modelled with
  `Except String`, the error string naming the Python exception.
* The process-global state of Python's `random` module is modelled by an
  abstract generator (`RandomModule`) threaded explicitly; `random.seed`
  replaces the incoming state with a state that is a function of the seed
  alone, exactly as the library documents.
-/

namespace NeuronInfer

/-! ## Batch partitioning (`run_inference`, test/images/neuron-inference/infer.py:252-259)

Python source being embedded:

```
all_batches = list(dataloader)
batches_per_thread = len(all_batches) // n_threads
thread_batches = [all_batches[i:i + batches_per_thread]
                  for i in range(0, len(all_batches), batches_per_thread)]
if len(thread_batches) > n_threads:
    thread_batches[-2].extend(thread_batches[-1])
    thread_batches.pop()
```

`[l[i:i+q] for i in range(0, len(l), q)]` with step `q > 0` takes
successive slices of `q` elements until the list is exhausted; `slicesF`
below implements exactly that, with an explicit fuel argument (bounded by
`l.length`, which suffices whenever `q > 0`) so that the definition is
structural and evaluates by `decide`/`rfl`.  If `q = 0`, Python's
`range(0, n, 0)` raises `ValueError` (and if `n_threads = 0` the integer
division itself raises `ZeroDivisionError`); `threadBatches` surfaces
both as `Except.error`.
-/

def slicesF {α : Type} : Nat → Nat → List α → List (List α)
  | 0, _, _ => []
  | _, _, [] => []
  | fuel+1, q, x :: xs => (x :: xs).take q :: slicesF fuel q ((x :: xs).drop q)

/-- `[l[i:i+q] for i in range(0, len(l), q)]` for `q > 0`. -/
def slices {α : Type} (q : Nat) (l : List α) : List (List α) :=
  slicesF l.length q l

/-- `thread_batches[-2].extend(thread_batches[-1]); thread_batches.pop()`:
merge the last partition into the second-to-last one. -/
def mergeLastTwo {α : Type} (ps : List (List α)) : List (List α) :=
  match ps.reverse with
  | b :: a :: rest => ((a ++ b) :: rest).reverse
  | _ => ps

/-- The partitioning step of `run_inference`: slices of size
`len(all_batches) // n_threads`, with the trailing short slice (if the
slicing produced more than `n_threads` slices) merged into the slice
before it.  Errors model the exceptions Python raises when the
per-thread share is zero. -/
def threadBatches {α : Type} (all_batches : List α) (n_threads : Nat) :
    Except String (List (List α)) :=
  if n_threads = 0 then
    Except.error "ZeroDivisionError: integer division or modulo by zero"
  else if all_batches.length / n_threads = 0 then
    Except.error "ValueError: range() arg 3 must not be zero"
  else if n_threads < (slices (all_batches.length / n_threads) all_batches).length then
    Except.ok (mergeLastTwo (slices (all_batches.length / n_threads) all_batches))
  else
    Except.ok (slices (all_batches.length / n_threads) all_batches)

/-! ## Synthetic NSP dataset builder (`create_dummy_data`, lines 93-170)

The builder uses Python's process-global `random` module.  `random.seed`,
`random.randint` and `random.random` belong to the standard library, not
to this repository, so they are modelled abstractly: a `RandomModule` is
any implementation of the three calls the builder makes, threaded through
an explicit state `σ` standing for the module-global generator state.
`seed` replaces the state with a function of the seed alone, which is the
documented behaviour of `random.seed`. -/

structure RandomModule (σ : Type) where
  seed : Nat → σ
  /-- `random.randint(a, b)`: an integer in `[a, b]`, both ends included. -/
  randint : σ → Nat → Nat → Nat × σ
  /-- The test `random.random() < 0.5`. -/
  randomLtHalf : σ → Bool × σ

/-- The fixed pool `sample_sentences` (10 sentences). -/
def sample_sentences : List String := [
  "The dog loves playing fetch in the park.",
  "Artificial intelligence is reshaping the future.",
  "Movies with complex storylines can be very engaging.",
  "This restaurant serves an amazing brunch on weekends.",
  "Many researchers are exploring neural network architectures.",
  "A day at the beach can reduce stress and improve well-being.",
  "ChatGPT is a popular large language model by OpenAI.",
  "The annual developer conference showcased innovative technologies.",
  "Hiking in the mountains offers both challenge and relaxation.",
  "Robotics and automation are revolutionizing many industries."]

/-- Output of the generation loop.  `sentences_a`/`sentences_b` hold the
chosen pool indices (`idx_a`/`idx_b` in the source; the mapping to the
sentence strings happens in `create_dummy_data`).  `coins` is ghost
instrumentation recording, per record, whether the
`random.random() < 0.5` branch was taken; it corresponds to no Python
value but lets the label/branch correspondence be stated. -/
structure GenOut where
  sentences_a : List Nat
  sentences_b : List Nat
  nsp_labels : List Nat
  coins : List Bool

/-- The `for _ in range(num_samples)` loop of `create_dummy_data`:
draw `idx_a = random.randint(0, len(sample_sentences) - 1)`; with
probability 0.5 take `idx_b = (idx_a + 1) % len(sample_sentences)` and
label 1, otherwise draw `idx_b` uniformly and label 0. -/
def genRecords {σ : Type} (R : RandomModule σ) : Nat → σ → GenOut × σ
  | 0, g => (⟨[], [], [], []⟩, g)
  | n + 1, g =>
    let p1 := R.randint g 0 (sample_sentences.length - 1)
    let pc := R.randomLtHalf p1.2
    let pb : Nat × Nat × σ :=
      if pc.1 then
        ((p1.1 + 1) % sample_sentences.length, 1, pc.2)
      else
        ((R.randint pc.2 0 (sample_sentences.length - 1)).1, 0,
         (R.randint pc.2 0 (sample_sentences.length - 1)).2)
    let rest := genRecords R n pb.2.2
    (⟨p1.1 :: rest.1.sentences_a, pb.1 :: rest.1.sentences_b,
      pb.2.1 :: rest.1.nsp_labels, pc.1 :: rest.1.coins⟩, rest.2)

/-- The `num_samples` adjustment at the top of `create_dummy_data`. -/
def adjusted_num_samples (num_samples batch_size : Nat) : Nat :=
  if num_samples % batch_size ≠ 0 then num_samples / batch_size * batch_size
  else num_samples

/-- `create_dummy_data`.  `g0` is the pre-existing state of the global
`random` module; the first statement `random.seed(seed)` replaces it.
The tokenizer call is external and count-preserving (one encoded row per
sentence pair), so the dataset is represented by the parallel lists the
tokenizer is called with, plus the label tensor's list.  `batch_size = 0`
makes `num_samples % batch_size` raise `ZeroDivisionError` in Python. -/
def create_dummy_data {σ : Type} (R : RandomModule σ) (_g0 : σ)
    (batch_size num_samples seed : Nat) :
    Except String ((List String × List String × List Nat) × σ) :=
  if batch_size = 0 then
    Except.error "ZeroDivisionError: integer division or modulo by zero"
  else
    let g := R.seed seed
    let n := adjusted_num_samples num_samples batch_size
    let p := genRecords R n g
    Except.ok
      ((p.1.sentences_a.map (fun i => sample_sentences.getD i ""),
        p.1.sentences_b.map (fun i => sample_sentences.getD i ""),
        p.1.nsp_labels), p.2)

/-- A concrete scripted `RandomModule` used for witnesses: the state is
the list of values still to be drawn; `randint` clamps the next value
into `[a, b]`. -/
def scriptRandom : RandomModule (List Nat) where
  seed _ := [0, 2, 1]
  randint g a b := (min (max (g.headD a) a) b, g.tail)
  randomLtHalf g := (decide (g.headD 0 = 1), g.tail)

/-! ## Inference mode resolution (`main`, lines 324-332 of the test
variant, 184-192 of the e2e2 variant; both are character-identical on
this logic)

```
mode = os.environ.get("INFERENCE_MODE", "throughput").lower()
if mode not in ["throughput", "latency"]:
    print_warning(...); mode = "throughput"
batch_size = 1 if mode == "latency" else 8
```
-/

/-- Python's `str.lower()` on the ASCII strings involved here: lowercase
every character. -/
def strLower (s : String) : String := String.mk (s.data.map Char.toLower)

/-- Resolve `INFERENCE_MODE` (`none` = variable unset) to the effective
mode; the Bool records whether the unrecognized-value warning fired. -/
def resolve_inference_mode (env : Option String) : String × Bool :=
  let mode := strLower (env.getD "throughput")
  if mode ≠ "throughput" ∧ mode ≠ "latency" then ("throughput", true)
  else (mode, false)

/-- `batch_size = 1 if mode == "latency" else 8`. -/
def batch_size_for (mode : String) : Nat :=
  if mode = "latency" then 1 else 8

/-! ## Device-status probe (`get_neuron_monitor_stats`, lines 25-75, and
its use in `main`, lines 314-322)

The probe spawns `neuron-monitor`, reads exactly the first line of its
standard output, and terminates the subprocess; only that first line (or
the absence of the executable) can influence the caller, which is what
`ProbeOutcome` records.  `json.loads` is external and is abstracted as a
`String → Option JVal` parameter (`none` = `json.JSONDecodeError`). -/

inductive JVal where
  | jnum (n : Int)
  | jstr (s : String)
  | jdict (entries : List (String × JVal))
  | jother

/-- `dict.get`: first binding of the key, if any. -/
def jlookup : List (String × JVal) → String → Option JVal
  | [], _ => none
  | (k, v) :: rest, key => if k = key then some v else jlookup rest key

inductive ProbeOutcome where
  /-- The executable is absent: `FileNotFoundError`. -/
  | notFound
  /-- The first line read from the subprocess's stdout. -/
  | firstLine (output : String)

/-- `get_neuron_monitor_stats`: every failure path is funnelled into a
`RuntimeError` by the `try`/`except` chain (the `except Exception`
arm catches the `AttributeError`/`TypeError` raised when a JSON field
has an unexpected shape). -/
def get_neuron_monitor_stats (jsonParse : String → Option JVal)
    (probe : ProbeOutcome) : Except String Int :=
  match probe with
  | ProbeOutcome.notFound =>
    Except.error "RuntimeError: neuron-monitor command not found"
  | ProbeOutcome.firstLine output =>
    if output = "" then
      Except.error "RuntimeError: No output received from neuron-monitor"
    else
      match jsonParse output with
      | none => Except.error "RuntimeError: Failed to parse JSON output"
      | some stats =>
        match stats with
        | JVal.jdict entries =>
          match (jlookup entries "neuron_hardware_info").getD (JVal.jdict []) with
          | JVal.jdict hentries =>
            match (jlookup hentries "neuron_device_type").getD (JVal.jstr "") with
            | JVal.jstr _ =>
              match (jlookup hentries "neuroncore_per_device_count").getD (JVal.jnum 0) with
              | JVal.jnum cnt =>
                if cnt ≤ 0 then
                  Except.error "RuntimeError: No Neuron devices found"
                else Except.ok cnt
              | _ => Except.error "RuntimeError: Error running neuron-monitor"
            | _ => Except.error "RuntimeError: Error running neuron-monitor"
          | _ => Except.error "RuntimeError: Error running neuron-monitor"
        | _ => Except.error "RuntimeError: Error running neuron-monitor"

/-- Outcome of `main` up to the probe: `get_neuron_monitor_stats` is the
first statement of `main`'s body, so a probe failure reaches
`sys.exit(1)` before the dataset, the model, or any metric exists. -/
inductive MainPhase where
  | exited (code : Nat)
  | workload (n_models : Int)

def main_probe_phase (jsonParse : String → Option JVal)
    (probe : ProbeOutcome) : MainPhase :=
  match get_neuron_monitor_stats jsonParse probe with
  | Except.error _ => MainPhase.exited 1
  | Except.ok n => MainPhase.workload n

/-! ## Metrics aggregation

Latencies and wall-clock spans (Python floats) are modelled as exact
rationals. -/

/-- Insertion into a sorted list (used to model the sort inside
`np.percentile`). -/
def insertSorted (x : ℚ) : List ℚ → List ℚ
  | [] => [x]
  | y :: ys => if x ≤ y then x :: y :: ys else y :: insertSorted x ys

/-- Insertion sort over the samples. -/
def sortRat (l : List ℚ) : List ℚ := l.foldr insertSorted []

/-- `np.percentile` with its default linear interpolation between order
statistics (external to the repository, modelled from numpy's documented
definition): on the sorted samples, the value at fractional rank
`p/100 * (n-1)`, interpolating linearly between the two neighbouring
order statistics.  numpy raises on an empty input. -/
def npPercentile (samples : List ℚ) (p : ℚ) : Except String ℚ :=
  if samples = [] then
    Except.error "IndexError: cannot do a non-empty take from an empty axes."
  else
    let sorted := sortRat samples
    let rank := p * ((sorted.length : ℚ) - 1) / 100
    let i := (⌊rank⌋).toNat
    let frac := rank - (i : ℚ)
    match sorted[i]?, sorted[i + 1]? with
    | some lo, some hi => Except.ok (lo + frac * (hi - lo))
    | some lo, none => Except.ok lo
    | none, _ => Except.ok 0

/-- Metrics block of `run_inference` in the test variant (lines 276-286):
p50/p95/p99 over the latency samples, `throughput = inferences /
duration`, `avg_time_per_batch = np.mean(latencies)`. -/
def computeMetricsTest (latencies : List ℚ) (rows_processed : Nat)
    (duration : ℚ) : Except String (ℚ × ℚ × ℚ × ℚ × ℚ) := do
  let p50 ← npPercentile latencies 50
  let p95 ← npPercentile latencies 95
  let p99 ← npPercentile latencies 99
  if duration = 0 then
    Except.error "ZeroDivisionError: float division by zero"
  else
    Except.ok (p50, p95, p99, (rows_processed : ℚ) / duration,
      latencies.sum / (latencies.length : ℚ))

/-- Metrics block of `run_inference` in the e2e2 variant (lines 135-170):
`total_time` is the sum of the per-batch times; a zero total raises
`RuntimeError` before any metric is produced. -/
def run_inference_metrics_e2e2 (batchTimes : List ℚ) (batch_size : Nat) :
    Except String (ℚ × ℚ) :=
  if batchTimes.sum = 0 then
    Except.error "RuntimeError: No inference time recorded (total_time == 0)."
  else
    Except.ok (batchTimes.sum / (batchTimes.length : ℚ),
      ((batchTimes.length : ℚ) * (batch_size : ℚ)) / batchTimes.sum)

/-! ## Worker fan-out (`run_inference`, lines 264-272)

```
for future in concurrent.futures.as_completed(futures):
    rows_processed += future.result()
```

Each worker task either returns its row count or raises; `as_completed`
yields the futures in an arbitrary completion order, so the driver is
modelled over an arbitrarily ordered list of task outcomes.
`future.result()` re-raises the task's exception, which then propagates
out of `run_inference` (there is no surrounding `try`). -/

def collect_rows : List (Except String Nat) → Except String Nat
  | [] => Except.ok 0
  | r :: rs =>
    match r with
    | Except.error e => Except.error e
    | Except.ok v =>
      match collect_rows rs with
      | Except.error e => Except.error e
      | Except.ok acc => Except.ok (v + acc)

/-- The tail of `run_inference`: sum the worker results, then compute
and report the metrics.  An exception from any worker propagates before
any metric is computed. -/
def run_inference_report (outcomes : List (Except String Nat))
    (latencies : List ℚ) (duration : ℚ) :
    Except String (ℚ × ℚ × ℚ × ℚ × ℚ) := do
  let rows ← collect_rows outcomes
  computeMetricsTest latencies rows duration

/-! ### Lemmas about `slicesF` -/

theorem slicesF_nil {α : Type} (fuel q : Nat) :
    slicesF (α := α) fuel q [] = [] := by
  cases fuel <;> rfl

theorem slicesF_cons {α : Type} (fuel q : Nat) (l : List α) (hl : l ≠ []) :
    slicesF (fuel + 1) q l = l.take q :: slicesF fuel q (l.drop q) := by
  cases l with
  | nil => exact absurd rfl hl
  | cons x xs => rfl

/-- With enough fuel the result does not depend on the fuel. -/
theorem slicesF_fuel {α : Type} (q : Nat) (hq : 0 < q) :
    ∀ (fuel fuel' : Nat) (l : List α),
      l.length ≤ fuel → l.length ≤ fuel' →
      slicesF fuel q l = slicesF fuel' q l := by
  intro fuel
  induction fuel with
  | zero =>
    intro fuel' l h _
    have : l = [] := List.length_eq_zero.mp (Nat.le_zero.mp h)
    subst this
    simp [slicesF_nil]
  | succ n ih =>
    intro fuel' l h h'
    cases l with
    | nil => simp [slicesF_nil]
    | cons x xs =>
      cases fuel' with
      | zero => simp at h'
      | succ m =>
        rw [slicesF_cons _ _ _ (by simp), slicesF_cons _ _ _ (by simp)]
        have hd : ((x :: xs).drop q).length ≤ n := by
          simp only [List.length_drop]
          have := List.length_cons x xs ▸ h
          omega
        have hd' : ((x :: xs).drop q).length ≤ m := by
          simp only [List.length_drop]
          have := List.length_cons x xs ▸ h'
          omega
        rw [ih _ _ hd hd]
        rw [ih _ _ hd hd']

/-- Concatenating the slices gives back the original list: the slicing is
contiguous and drops nothing. -/
theorem slicesF_flatten {α : Type} (q : Nat) (hq : 0 < q) :
    ∀ (fuel : Nat) (l : List α), l.length ≤ fuel →
      (slicesF fuel q l).flatten = l := by
  intro fuel
  induction fuel with
  | zero =>
    intro l h
    have : l = [] := List.length_eq_zero.mp (Nat.le_zero.mp h)
    subst this
    simp [slicesF_nil]
  | succ n ih =>
    intro l h
    cases l with
    | nil => simp [slicesF_nil]
    | cons x xs =>
      rw [slicesF_cons _ _ _ (by simp)]
      have hd : ((x :: xs).drop q).length ≤ n := by
        simp only [List.length_drop]
        have := List.length_cons x xs ▸ h
        omega
      simp [ih _ hd]

/-- Shape of the slice lengths when `l.length = k * q + r` with
`0 < r ≤ q`: `k` full slices of length `q` followed by one short slice of
length `r`. -/
theorem slicesF_lengths {α : Type} (q : Nat) (hq : 0 < q) :
    ∀ (k : Nat) (fuel : Nat) (l : List α) (r : Nat),
      0 < r → r ≤ q → l.length = k * q + r → l.length ≤ fuel →
      (slicesF fuel q l).map List.length = List.replicate k q ++ [r] := by
  intro k
  induction k with
  | zero =>
    intro fuel l r hr hrq hlen hfuel
    cases l with
    | nil => simp at hlen; omega
    | cons x xs =>
      cases fuel with
      | zero => simp at hfuel
      | succ n =>
        rw [slicesF_cons _ _ _ (by simp)]
        have h1 : (x :: xs).length ≤ q := by omega
        have hdrop : (x :: xs).drop q = [] := by
          apply List.eq_nil_of_length_eq_zero
          simp only [List.length_drop]
          omega
        have htake : (x :: xs).take q = x :: xs :=
          List.take_of_length_le h1
        rw [htake, hdrop, slicesF_nil]
        simp only [List.map_cons, List.map_nil, List.replicate_zero,
          List.nil_append, List.cons.injEq, and_true, List.length_cons]
        simp only [List.length_cons, Nat.zero_mul, Nat.zero_add] at hlen
        omega
  | succ k ih =>
    intro fuel l r hr hrq hlen hfuel
    cases l with
    | nil => simp at hlen; omega
    | cons x xs =>
      cases fuel with
      | zero => simp at hfuel
      | succ n =>
        rw [slicesF_cons _ _ _ (by simp)]
        have hlq : q ≤ (x :: xs).length := by
          have : q ≤ (k + 1) * q := Nat.le_mul_of_pos_left q (Nat.succ_pos k)
          omega
        have hdlen : ((x :: xs).drop q).length = k * q + r := by
          simp only [List.length_drop]
          have : (k + 1) * q = k * q + q := by ring
          omega
        have htake : ((x :: xs).take q).length = q :=
          List.length_take_of_le hlq
        have hfuel' : ((x :: xs).drop q).length ≤ n := by
          simp only [List.length_drop]
          have hkq : 0 < (k + 1) * q := Nat.mul_pos (Nat.succ_pos k) hq
          have := List.length_cons x xs ▸ hfuel
          omega
        rw [List.map_cons, htake, ih n _ r hr hrq hdlen hfuel']
        simp [List.replicate_succ]

theorem mergeLastTwo_append {α : Type} (xs : List (List α)) (a b : List α) :
    mergeLastTwo (xs ++ [a, b]) = xs ++ [a ++ b] := by
  unfold mergeLastTwo
  have h : (xs ++ [a, b]).reverse = b :: a :: xs.reverse := by
    simp
  rw [h]
  simp

/-- Any list of length at least two splits off its last two elements. -/
theorem exists_append_pair {α : Type} (ps : List α) (h : 2 ≤ ps.length) :
    ∃ xs a b, ps = xs ++ [a, b] := by
  cases hps : ps.reverse with
  | nil =>
    rw [List.reverse_eq_nil_iff] at hps
    subst hps
    simp at h
  | cons b t =>
    cases t with
    | nil =>
      have := congrArg List.reverse hps
      simp at this
      subst this
      simp at h
    | cons a rest =>
      refine ⟨rest.reverse, a, b, ?_⟩
      have := congrArg List.reverse hps
      simpa using this

theorem threadBatches_eq_merge {α : Type} (l : List α) (T : Nat)
    (hT0 : ¬ T = 0) (hq0 : ¬ l.length / T = 0)
    (hgt : T < (slices (l.length / T) l).length) :
    threadBatches l T = Except.ok (mergeLastTwo (slices (l.length / T) l)) := by
  unfold threadBatches
  rw [if_neg hT0, if_neg hq0, if_pos hgt]

/-- C1 (amended): with `2 ≤ T`, `B` not divisible by `T`, and
`B % T ≤ B / T`, the partitioning in `run_inference` produces exactly `T`
contiguous partitions (not `T - 1`): `T - 1` partitions of size `B / T`
followed by one of size `B / T + B % T` (the remainder merged into what
was the second-to-last slice before the short last slice was popped),
whose concatenation is the whole batch list, so partition sizes sum to
`B`. -/
theorem run_inference_partition_amended (B T : Nat) (hT : 2 ≤ T)
    (hr : B % T ≠ 0) (hrq : B % T ≤ B / T) :
    Except.map
      (fun ps : List (List Nat) =>
        (ps.length, ps.flatten, ps.map List.length, (ps.map List.length).sum))
      (threadBatches (List.range B) T)
    = Except.ok
        (T, List.range B,
         List.replicate (T - 1) (B / T) ++ [B / T + B % T], B) := by
  have hq : 0 < B / T := lt_of_lt_of_le (Nat.pos_of_ne_zero hr) hrq
  have hB : T * (B / T) + B % T = B := Nat.div_add_mod B T
  have hlenB : (List.range B).length = B := List.length_range B
  have hmap : (slices (B / T) (List.range B)).map List.length
      = List.replicate T (B / T) ++ [B % T] := by
    unfold slices
    exact slicesF_lengths (B / T) hq T _ (List.range B) (B % T)
      (Nat.pos_of_ne_zero hr) hrq (by rw [hlenB]; omega) (le_refl _)
  have hflat : (slices (B / T) (List.range B)).flatten = List.range B :=
    slicesF_flatten (B / T) hq _ _ (le_refl _)
  have hlen_ps : (slices (B / T) (List.range B)).length = T + 1 := by
    have := congrArg List.length hmap
    simpa using this
  obtain ⟨xs, a, b, hdecomp⟩ :=
    exists_append_pair (slices (B / T) (List.range B)) (by omega)
  have hxs : xs.length = T - 1 := by
    have := hdecomp ▸ hlen_ps
    simp at this
    omega
  have hrep : List.replicate T (B / T) ++ [B % T]
      = List.replicate (T - 1) (B / T) ++ [B / T, B % T] := by
    have h1 : List.replicate T (B / T)
        = List.replicate ((T - 1) + 1) (B / T) := by
      congr 1
      omega
    rw [h1, List.replicate_succ']
    simp
  have hmap' : xs.map List.length ++ [a.length, b.length]
      = List.replicate (T - 1) (B / T) ++ [B / T, B % T] := by
    rw [← hrep, ← hmap, hdecomp]
    simp
  obtain ⟨hxsmap, hab⟩ := List.append_inj hmap' (by simpa using hxs)
  have ha : a.length = B / T := by
    simpa using congrArg (fun l => l.headD 0) hab
  have hb : b.length = B % T := by
    simpa using congrArg (fun l => l.getLast? ) hab
  have hTB : threadBatches (List.range B) T
      = Except.ok (mergeLastTwo (slices ((List.range B).length / T) (List.range B))) := by
    apply threadBatches_eq_merge
    · omega
    · rw [hlenB]; omega
    · rw [hlenB]; omega
  have hmerge : mergeLastTwo (slices (B / T) (List.range B)) = xs ++ [a ++ b] := by
    rw [hdecomp, mergeLastTwo_append]
  rw [hlenB] at hTB
  rw [hTB]
  simp only [Except.map, hmerge]
  have hflat2 : (xs ++ [a ++ b]).flatten = List.range B := by
    have h2 := hdecomp ▸ hflat
    simp only [List.flatten_append, List.flatten_cons, List.flatten_nil,
      List.append_nil] at h2 ⊢
    simpa [List.append_assoc] using h2
  have hmap2 : (xs ++ [a ++ b]).map List.length
      = List.replicate (T - 1) (B / T) ++ [B / T + B % T] := by
    simp [hxsmap, ha, hb]
  have hsum2 : ((xs ++ [a ++ b]).map List.length).sum = B := by
    rw [← List.length_flatten, hflat2, hlenB]
  have hlen2 : (xs ++ [a ++ b]).length = T := by
    simp [hxs]
    omega
  rw [hlen2, hflat2, hsum2, hmap2]

/-- C1 witness: at `B = 10`, `T = 3` the hypotheses hold and the code
produces 3 partitions of sizes `[3, 3, 4]` summing to 10. -/
theorem run_inference_partition_amended_witness :
    Except.map
      (fun ps : List (List Nat) =>
        (ps.length, ps.flatten, ps.map List.length, (ps.map List.length).sum))
      (threadBatches (List.range 10) 3)
    = Except.ok
        (3, List.range 10,
         List.replicate (3 - 1) (10 / 3) ++ [10 / 3 + 10 % 3], 10) :=
  run_inference_partition_amended 10 3 (by decide) (by decide) (by decide)

/-- C1 counterexample: at `B = 3`, `T = 2` (so `T ≥ 2` and `T ∤ B`) the
code produces `[[b0], [b1, b2]]` — `2 = T` partitions, not `T - 1 = 1` as
the claim states. -/
theorem run_inference_partition_count_cex :
    threadBatches (List.range 3) 2 = Except.ok [[0], [1, 2]] ∧
    Except.map (fun ps : List (List Nat) => ps.length)
      (threadBatches (List.range 3) 2) ≠ Except.ok (2 - 1) := by
  refine ⟨rfl, ?_⟩
  have heval : Except.map (fun ps : List (List Nat) => ps.length)
      (threadBatches (List.range 3) 2) = Except.ok 2 := rfl
  rw [heval]
  simp

/-- C10: when `0 < B < T` the per-thread share `B // T` is zero and the
slicing comprehension's `range(0, B, 0)` raises `ValueError`: the
partitioning step fails, so `B ≥ T` is a precondition for the driver. -/
theorem run_inference_partition_underflow (B T : Nat)
    (hB : 0 < B) (hBT : B < T) :
    threadBatches (List.range B) T
      = Except.error "ValueError: range() arg 3 must not be zero" := by
  have hT0 : ¬ T = 0 := by omega
  have hq : (List.range B).length / T = 0 := by
    rw [List.length_range]
    exact Nat.div_eq_of_lt hBT
  unfold threadBatches
  rw [if_neg hT0, if_pos hq]

/-- C10 witness: one batch, two threads. -/
theorem run_inference_partition_underflow_witness :
    threadBatches (List.range 1) 2
      = Except.error "ValueError: range() arg 3 must not be zero" :=
  run_inference_partition_underflow 1 2 (by decide) (by decide)

/-! ### The dataset builder -/

theorem genRecords_length {σ : Type} (R : RandomModule σ) :
    ∀ (n : Nat) (g : σ),
      (genRecords R n g).1.sentences_a.length = n ∧
      (genRecords R n g).1.sentences_b.length = n ∧
      (genRecords R n g).1.nsp_labels.length = n ∧
      (genRecords R n g).1.coins.length = n := by
  intro n
  induction n with
  | zero => intro g; simp [genRecords]
  | succ n ih =>
    intro g
    simp only [genRecords, List.length_cons]
    refine ⟨?_, ?_, ?_, ?_⟩
    · simp [(ih _).1]
    · simp [(ih _).2.1]
    · simp [(ih _).2.2.1]
    · simp [(ih _).2.2.2]

/-- C2: for every sample count `n` and batch size `b ≥ 1`, the builder
silently (no error) produces a dataset of size `n / b * b` — the largest
multiple of `b` not exceeding `n` — in all three parallel lists; when
`b ∤ n` this is strictly below `n`. -/
theorem create_dummy_data_size {σ : Type} (R : RandomModule σ) (g0 : σ)
    (b n s : Nat) (hb : 1 ≤ b) :
    Except.map (fun r => (r.1.1.length, r.1.2.1.length, r.1.2.2.length))
      (create_dummy_data R g0 b n s)
    = Except.ok (n / b * b, n / b * b, n / b * b)
    ∧ n / b * b ≤ n
    ∧ b ∣ n / b * b
    ∧ n < n / b * b + b
    ∧ (¬ b ∣ n → n / b * b < n) := by
  have hb0 : ¬ b = 0 := by omega
  have hadj : adjusted_num_samples n b = n / b * b := by
    unfold adjusted_num_samples
    by_cases h : n % b = 0
    · simp only [h, ne_eq, not_true_eq_false, if_false, ite_false,
        not_not, if_neg]
      exact (Nat.div_mul_cancel (Nat.dvd_of_mod_eq_zero h)).symm
    · simp [h]
  have hmod := Nat.div_add_mod n b
  have hlt : n % b < b := Nat.mod_lt n (by omega)
  have hcomm : b * (n / b) = n / b * b := Nat.mul_comm _ _
  refine ⟨?_, Nat.div_mul_le_self n b, ⟨n / b, Nat.mul_comm (n / b) b⟩,
    by omega, ?_⟩
  · unfold create_dummy_data
    rw [if_neg hb0]
    have hg := genRecords_length R (adjusted_num_samples n b) (R.seed s)
    rw [hadj] at hg
    simp only [Except.map, List.length_map, hadj, hg.1, hg.2.1, hg.2.2.1]
  · intro hnd
    have hne : n % b ≠ 0 := fun h => hnd (Nat.dvd_of_mod_eq_zero h)
    omega

/-- C2 witness: `n = 10`, `b = 3` gives a dataset of size 9 with no
error. -/
theorem create_dummy_data_size_witness :
    Except.map (fun r => (r.1.1.length, r.1.2.1.length, r.1.2.2.length))
      (create_dummy_data scriptRandom [] 3 10 42)
    = Except.ok (10 / 3 * 3, 10 / 3 * 3, 10 / 3 * 3)
    ∧ 10 / 3 * 3 ≤ 10
    ∧ 3 ∣ 10 / 3 * 3
    ∧ 10 < 10 / 3 * 3 + 3
    ∧ (¬ 3 ∣ 10 → 10 / 3 * 3 < 10) :=
  create_dummy_data_size scriptRandom [] 3 10 42 (by decide)

/-- C3: two runs of `create_dummy_data` with the same
`(seed, num_samples, batch_size)` produce identical sentence-pair lists
and identical labels, whatever the pre-existing global generator states
`g1`, `g2` of the two runs were: the leading `random.seed(seed)` call
overwrites the incoming state, so the entire output is a function of the
arguments alone. -/
theorem create_dummy_data_deterministic {σ : Type} (R : RandomModule σ)
    (g1 g2 : σ) (b n s : Nat) :
    create_dummy_data R g1 b n s = create_dummy_data R g2 b n s := rfl

/-- The per-record rule of the generation loop: the label equals 1
exactly on the records whose `random.random() < 0.5` draw succeeded, and
on those records the second index is the cyclic successor of the first.
(For `i` past the end all four `getD` defaults make both sides hold
trivially.) -/
theorem genRecords_label_rule {σ : Type} (R : RandomModule σ) :
    ∀ (n : Nat) (g : σ) (i : Nat),
      ((genRecords R n g).1.nsp_labels.getD i 0
        = if (genRecords R n g).1.coins.getD i false then 1 else 0)
      ∧ ((genRecords R n g).1.coins.getD i false = true →
          (genRecords R n g).1.sentences_b.getD i 0
            = ((genRecords R n g).1.sentences_a.getD i 0 + 1)
                % sample_sentences.length) := by
  intro n
  induction n with
  | zero => intro g i; simp [genRecords]
  | succ n ih =>
    intro g i
    cases i with
    | zero =>
      by_cases hc :
          (R.randomLtHalf (R.randint g 0 (sample_sentences.length - 1)).2).1
      · simp [genRecords, hc]
      · simp [genRecords, hc]
    | succ i =>
      simp only [genRecords, List.getD_cons_succ]
      exact ih _ i

/-- C9: every produced record has `nsp_label = 1` exactly when the
probability-0.5 branch was taken, in which case `sentence_b` is the
cyclic successor `(idx_a + 1) % 10` of `sentence_a` in the 10-sentence
pool; and a uniform draw in the other branch that happens to hit the
true successor keeps label 0 (exhibited by the scripted generator, whose
single record draws `idx_a = 0`, coin false, `idx_b = 1`). -/
theorem create_dummy_data_nsp_semantics {σ : Type} (R : RandomModule σ)
    (n : Nat) (g : σ) (i : Nat) :
    ((genRecords R n g).1.nsp_labels.getD i 0
      = if (genRecords R n g).1.coins.getD i false then 1 else 0)
    ∧ ((genRecords R n g).1.coins.getD i false = true →
        (genRecords R n g).1.sentences_b.getD i 0
          = ((genRecords R n g).1.sentences_a.getD i 0 + 1)
              % sample_sentences.length)
    ∧ ((genRecords scriptRandom 1 (scriptRandom.seed 42)).1.sentences_a = [0]
        ∧ (genRecords scriptRandom 1 (scriptRandom.seed 42)).1.sentences_b = [1]
        ∧ (genRecords scriptRandom 1 (scriptRandom.seed 42)).1.nsp_labels = [0]
        ∧ (1 : Nat) = (0 + 1) % sample_sentences.length) := by
  refine ⟨(genRecords_label_rule R n g i).1,
    (genRecords_label_rule R n g i).2, ?_, ?_, ?_, ?_⟩
  · decide
  · decide
  · decide
  · decide

/-- C9 witness: a coin-true record (scripted draws `idx_a = 0`, coin
true) has its second sentence equal to the pool successor. -/
theorem create_dummy_data_nsp_semantics_witness :
    (genRecords scriptRandom 1 [0, 1, 99]).1.sentences_b.getD 0 0
      = ((genRecords scriptRandom 1 [0, 1, 99]).1.sentences_a.getD 0 0 + 1)
          % sample_sentences.length :=
  (create_dummy_data_nsp_semantics scriptRandom 1 [0, 1, 99] 0).2.1 (by decide)

/-! ### Mode resolution -/

/-- C5: `INFERENCE_MODE=latency` resolves to batch size 1 (no warning);
`throughput` and unset resolve to batch size 8 (no warning); any value
whose lowercasing is neither mode falls back to `throughput`, batch
size 8, with the warning emitted. -/
theorem inference_mode_resolution :
    (resolve_inference_mode (some "latency") = ("latency", false)
      ∧ batch_size_for (resolve_inference_mode (some "latency")).1 = 1)
    ∧ (resolve_inference_mode none = ("throughput", false)
      ∧ batch_size_for (resolve_inference_mode none).1 = 8)
    ∧ (resolve_inference_mode (some "throughput") = ("throughput", false)
      ∧ batch_size_for (resolve_inference_mode (some "throughput")).1 = 8)
    ∧ (∀ s : String, strLower s ≠ "throughput" → strLower s ≠ "latency" →
        resolve_inference_mode (some s) = ("throughput", true)
        ∧ batch_size_for (resolve_inference_mode (some s)).1 = 8) := by
  refine ⟨⟨by decide, by decide⟩, ⟨by decide, by decide⟩,
    ⟨by decide, by decide⟩, ?_⟩
  intro s h1 h2
  unfold resolve_inference_mode
  simp only [Option.getD_some]
  rw [if_pos ⟨h1, h2⟩]
  exact ⟨rfl, by decide⟩

/-- C5 witness: the unrecognized value `BOGUS` falls back to
`throughput`, batch size 8, with the warning. -/
theorem inference_mode_resolution_witness :
    resolve_inference_mode (some "BOGUS") = ("throughput", true)
    ∧ batch_size_for (resolve_inference_mode (some "BOGUS")).1 = 8 :=
  inference_mode_resolution.2.2.2 "BOGUS" (by decide) (by decide)

/-! ### Device-status probe -/

/-- C6: all probe failure modes — executable absent, empty first line,
first line unparseable as JSON, non-positive device-count field — make
`get_neuron_monitor_stats` raise, and `main` (whose first action is this
probe) exits with code 1 before any workload runs; in general any probe
error reaches `sys.exit(1)`. -/
theorem probe_failures_fatal :
    (∀ parse : String → Option JVal,
      get_neuron_monitor_stats parse ProbeOutcome.notFound
        = Except.error "RuntimeError: neuron-monitor command not found"
      ∧ main_probe_phase parse ProbeOutcome.notFound = MainPhase.exited 1)
    ∧ (∀ parse : String → Option JVal,
      get_neuron_monitor_stats parse (ProbeOutcome.firstLine "")
        = Except.error "RuntimeError: No output received from neuron-monitor"
      ∧ main_probe_phase parse (ProbeOutcome.firstLine "") = MainPhase.exited 1)
    ∧ (∀ (parse : String → Option JVal) (line : String), line ≠ "" →
      parse line = none →
      get_neuron_monitor_stats parse (ProbeOutcome.firstLine line)
        = Except.error "RuntimeError: Failed to parse JSON output"
      ∧ main_probe_phase parse (ProbeOutcome.firstLine line) = MainPhase.exited 1)
    ∧ (∀ (parse : String → Option JVal) (line dt : String)
        (entries hentries : List (String × JVal)) (cnt : Int), line ≠ "" →
      parse line = some (JVal.jdict entries) →
      jlookup entries "neuron_hardware_info" = some (JVal.jdict hentries) →
      jlookup hentries "neuron_device_type" = some (JVal.jstr dt) →
      jlookup hentries "neuroncore_per_device_count" = some (JVal.jnum cnt) →
      cnt ≤ 0 →
      get_neuron_monitor_stats parse (ProbeOutcome.firstLine line)
        = Except.error "RuntimeError: No Neuron devices found"
      ∧ main_probe_phase parse (ProbeOutcome.firstLine line) = MainPhase.exited 1)
    ∧ (∀ (parse : String → Option JVal) (probe : ProbeOutcome),
      (get_neuron_monitor_stats parse probe).isOk = false →
      main_probe_phase parse probe = MainPhase.exited 1) := by
  refine ⟨fun parse => ⟨rfl, rfl⟩, fun parse => ⟨rfl, rfl⟩, ?_, ?_, ?_⟩
  · intro parse line hline hparse
    have hg : get_neuron_monitor_stats parse (ProbeOutcome.firstLine line)
        = Except.error "RuntimeError: Failed to parse JSON output" := by
      simp [get_neuron_monitor_stats, hline, hparse]
    exact ⟨hg, by simp [main_probe_phase, hg]⟩
  · intro parse line dt entries hentries cnt hline hparse hhw hdt hcnt hle
    have hg : get_neuron_monitor_stats parse (ProbeOutcome.firstLine line)
        = Except.error "RuntimeError: No Neuron devices found" := by
      simp [get_neuron_monitor_stats, hline, hparse, hhw, hdt, hcnt, hle]
    exact ⟨hg, by simp [main_probe_phase, hg]⟩
  · intro parse probe h
    unfold main_probe_phase
    cases hE : get_neuron_monitor_stats parse probe with
    | error e => rfl
    | ok v => rw [hE] at h; simp [Except.isOk, Except.toBool] at h

/-- C6 witness: a first line that is not valid JSON is fatal. -/
theorem probe_failures_fatal_witness :
    get_neuron_monitor_stats (fun _ => none) (ProbeOutcome.firstLine "oops")
      = Except.error "RuntimeError: Failed to parse JSON output"
    ∧ main_probe_phase (fun _ => none) (ProbeOutcome.firstLine "oops")
      = MainPhase.exited 1 :=
  probe_failures_fatal.2.2.1 (fun _ => none) "oops" (by decide) rfl

/-! ### Metrics aggregation -/

/-- C4: with no latency samples (equivalently a zero total elapsed
time), the metrics step raises instead of reporting a zero/NaN
throughput: the e2e2 variant's explicit `total_time == 0.0` guard raises
`RuntimeError`, and in the test variant the `np.percentile` calls raise
on the empty sample list before any metric is formed. -/
theorem metrics_empty_latencies_fatal (b rows : Nat) (d : ℚ)
    (ts : List ℚ) (hts : ts.sum = 0) :
    run_inference_metrics_e2e2 ts b
      = Except.error "RuntimeError: No inference time recorded (total_time == 0)."
    ∧ computeMetricsTest [] rows d
      = Except.error "IndexError: cannot do a non-empty take from an empty axes." := by
  constructor
  · unfold run_inference_metrics_e2e2
    rw [if_pos hts]
  · rfl

/-- C4 witness: the empty run. -/
theorem metrics_empty_latencies_fatal_witness :
    run_inference_metrics_e2e2 [] 8
      = Except.error "RuntimeError: No inference time recorded (total_time == 0)."
    ∧ computeMetricsTest [] 0 1
      = Except.error "IndexError: cannot do a non-empty take from an empty axes." :=
  metrics_empty_latencies_fatal 8 0 1 [] (by decide)

/-- C7: if any worker task's outcome is an exception, then in every
completion order the driver's result-collection loop re-raises it, no
metrics are computed and no metrics line is emitted (the partial data is
discarded with the propagating exception). -/
theorem worker_exception_aborts (e : String)
    (outcomes : List (Except String Nat)) (lats : List ℚ) (dur : ℚ)
    (h : Except.error e ∈ outcomes) :
    (collect_rows outcomes).isOk = false
    ∧ (run_inference_report outcomes lats dur).isOk = false := by
  have hc : (collect_rows outcomes).isOk = false := by
    induction outcomes with
    | nil => simp at h
    | cons r rs ih =>
      rcases List.mem_cons.mp h with h1 | h2
      · rw [← h1]
        rfl
      · cases r with
        | error e' => rfl
        | ok v =>
          have hrs := ih h2
          cases hE : collect_rows rs with
          | error e' => simp only [collect_rows, hE]; rfl
          | ok acc =>
            rw [hE] at hrs
            simp [Except.isOk, Except.toBool] at hrs
  refine ⟨hc, ?_⟩
  unfold run_inference_report
  cases hE : collect_rows outcomes with
  | error e' => rfl
  | ok v => rw [hE] at hc; simp [Except.isOk, Except.toBool] at hc

/-- C7 witness: one failing worker among two. -/
theorem worker_exception_aborts_witness :
    (collect_rows [Except.ok 5, Except.error "boom"]).isOk = false
    ∧ (run_inference_report [Except.ok 5, Except.error "boom"] [1] 1).isOk
      = false :=
  worker_exception_aborts "boom" [Except.ok 5, Except.error "boom"] [1] 1
    (by simp)

theorem sortRat_sample :
    sortRat [10, 20, 30, 40, 50] = [10, 20, 30, 40, 50] := by
  norm_num [sortRat, insertSorted]

theorem npPercentile_sample_50 :
    npPercentile [10, 20, 30, 40, 50] 50 = Except.ok 30 := by
  unfold npPercentile
  rw [if_neg (by simp)]
  simp only [sortRat_sample]
  norm_num
  have h1 : Int.toNat 2 = 2 := rfl
  simp only [h1]
  have h2 : ([10, 20, 30, 40, 50] : List ℚ)[(2 : ℕ)] = 30 := rfl
  have h3 : ([20, 30, 40, 50] : List ℚ)[(2 : ℕ)] = 40 := rfl
  simp only [h2, h3]
  norm_num

theorem npPercentile_sample_95 :
    npPercentile [10, 20, 30, 40, 50] 95 = Except.ok 48 := by
  unfold npPercentile
  rw [if_neg (by simp)]
  simp only [sortRat_sample]
  norm_num
  have h1 : Int.toNat 3 = 3 := rfl
  simp only [h1]
  have h2 : ([10, 20, 30, 40, 50] : List ℚ)[(3 : ℕ)] = 40 := rfl
  have h3 : ([20, 30, 40, 50] : List ℚ)[(3 : ℕ)] = 50 := rfl
  simp only [h2, h3]
  norm_num

theorem npPercentile_sample_99 :
    npPercentile [10, 20, 30, 40, 50] 99 = Except.ok (248 / 5) := by
  unfold npPercentile
  rw [if_neg (by simp)]
  simp only [sortRat_sample]
  norm_num
  have h1 : Int.toNat 3 = 3 := rfl
  simp only [h1]
  have h2 : ([10, 20, 30, 40, 50] : List ℚ)[(3 : ℕ)] = 40 := rfl
  have h3 : ([20, 30, 40, 50] : List ℚ)[(3 : ℕ)] = 50 := rfl
  simp only [h2, h3]
  norm_num

/-- C8: the percentile computation interpolates linearly between order
statistics; on the latency samples `[10, 20, 30, 40, 50]` the p50
(first metric of the test variant's aggregation) is exactly 30. -/
theorem percentile_p50_linear_interpolation :
    npPercentile [10, 20, 30, 40, 50] 50 = Except.ok 30
    ∧ Except.map (fun m => m.1)
        (computeMetricsTest [10, 20, 30, 40, 50] 400 1) = Except.ok 30 := by
  refine ⟨npPercentile_sample_50, ?_⟩
  simp [computeMetricsTest, npPercentile_sample_50, npPercentile_sample_95,
    npPercentile_sample_99, Except.map]
  rfl

end NeuronInfer
